import Mathlib

/-!
Verification of the Smart Travel Planning Assistant core logic.

This file gives a shallow embedding, in Lean 4, of the pure parts of the
travel orchestrator (`build/travel-orchestrator.js`), the currency server
(`src/currency-server.ts`) and the weather server (`src/weather-server.ts`),
and proves or refutes the stated behavioural properties of the system.

Modelling conventions:
 - JavaScript numbers are modelled as rationals (all arithmetic performed by
   the program on the relevant code paths is exact on small rationals);
   `Math.round` is modelled as `fun q => Int.floor (q + 1/2)`, which agrees
   with JavaScript's round-half-up behaviour.
 - Asynchronous provider calls are modelled as input functions:
   a provider is a pure function from its query to either a value or an error
   (`Except String _`); `Promise.all` over `destinations.map` is `List.map`,
   which is exactly the order-preserving join semantics of `Promise.all`.
 - JavaScript's `Array.prototype.sort` (guaranteed stable by the ECMAScript
   specification) is modelled by `List.mergeSort`, which is stable.
 - String case folding (`toLowerCase`) is modelled character-wise by
   `Char.toLower`, and `String.prototype.includes` by the infix relation
   on character lists.
-/

namespace SmartTravel

/-- JavaScript `haystack.includes(needle)` after `toLowerCase()` on both
sides: the lower-cased characters of `sub` occur contiguously inside the
lower-cased characters of `hay`. -/
def jsIncludes (hay sub : String) : Bool :=
  decide ((sub.toList.map Char.toLower) <:+: (hay.toList.map Char.toLower))

/-- JavaScript `Math.round`: round half toward positive infinity. -/
def jsRound (q : ℚ) : ℤ := (q + 1/2).floor

/-- `jsRound` agrees with the mathematical floor of `q + 1/2`. -/
theorem jsRound_eq_floor (q : ℚ) : jsRound q = ⌊q + 1/2⌋ := by
  rw [jsRound, Rat.floor_def, Rat.floor_def']

/-! ## Data model (from `build/travel-orchestrator.js`) -/

/-- `weather.current` as produced by `getWeatherForecast`. -/
structure CurrentWeather where
  temp : ℚ
  conditions : String
  humidity : ℚ
deriving DecidableEq

/-- One entry of `weather.forecast`. -/
structure ForecastEntry where
  date : String
  temp : ℚ
  conditions : String
deriving DecidableEq

/-- The weather payload used by the orchestrator (`current` + `forecast`). -/
structure WeatherInfo where
  current : CurrentWeather
  forecast : List ForecastEntry
deriving DecidableEq

/-- A flight option as returned by `searchFlights`. -/
structure Flight where
  airline : String
  flightNumber : String
  price : ℚ
  duration : String
deriving DecidableEq

/-- A hotel option as returned by `searchHotels`. -/
structure Hotel where
  name : String
  rating : ℚ
  pricePerNight : ℚ
  totalPrice : ℚ
deriving DecidableEq

/-- An activity as returned by `getActivities`. -/
structure Activity where
  name : String
  type : String
  price : ℚ
  rating : ℚ
deriving DecidableEq

/-- The `criteria` argument of `compare_destinations`. -/
structure Criteria where
  budget : Option ℚ
  weather : Option String
  activities : Option (List String)
deriving DecidableEq

/-! ## Cost calculator (`calculateTotalCost`, travel-orchestrator.js:358-363) -/

/-- `calculateTotalCost(flights, hotels, activities, travelers)`:
three `reduce` folds, the activity total scaled by the traveller count. -/
def calculateTotalCost (flights : List Flight) (hotels : List Hotel)
    (activities : List Activity) (travelers : ℚ) : ℚ :=
  let flightCost := flights.foldl (fun sum flight => sum + flight.price) 0
  let hotelCost := hotels.foldl (fun sum hotel => sum + hotel.totalPrice) 0
  let activityCost :=
    (activities.foldl (fun sum activity => sum + activity.price) 0) * travelers
  flightCost + hotelCost + activityCost

/-! ## Scoring engine (`calculateOverallScore`, travel-orchestrator.js:395-412) -/

/-- `calculateOverallScore(weather, hotelCost, safety, activities, criteria)`.
The guard mirrors `criteria.weather && conditions.toLowerCase()
.includes(criteria.weather.toLowerCase())`: in JavaScript the empty string is
falsy, so an empty preference takes the `else` branch. -/
def calculateOverallScore (weather : WeatherInfo) (hotelCost : ℚ) (safety : ℚ)
    (activities : List Activity) (criteria : Criteria) : ℤ :=
  let score : ℚ := 0
  let score :=
    if (match criteria.weather with
        | some w => w ≠ "" && jsIncludes weather.current.conditions w
        | none => false) then
      score + 30
    else
      score + 20
  let costScore := max 0 (25 - hotelCost / 10)
  let score := score + costScore
  let score := score + (safety / 5) * 25
  let score := score + min ((activities.length : ℚ) * 5) 20
  jsRound score

/-- The overall-score formula exactly as the specification claim words it:
the weather term is 30 whenever a preference is given (any string, including
the empty one) and is a case-insensitive substring of the current conditions.
This definition exists to be compared against `calculateOverallScore`. -/
def claimOverallScore (weather : WeatherInfo) (hotelCost : ℚ) (safety : ℚ)
    (activities : List Activity) (weatherPreference : Option String) : ℤ :=
  let weatherTerm : ℚ :=
    match weatherPreference with
    | some w => if jsIncludes weather.current.conditions w then 30 else 20
    | none => 20
  jsRound (weatherTerm + max 0 (25 - hotelCost / 10) + (safety / 5) * 25
    + min ((activities.length : ℚ) * 5) 20)

/-- A concrete weather payload used in counterexamples and witnesses. -/
def sunnyWeather : WeatherInfo :=
  ⟨⟨22, "Sunny", 65⟩, []⟩

/-! ## Sanity examples for the scoring and cost functions -/

example : jsIncludes "Sunny" "sun" = true := by decide

example : jsIncludes "Sunny" "rain" = false := by decide

example : jsIncludes "Sunny" "" = true := by decide

/-- Evaluation rule for `jsRound` at concrete arguments. -/
theorem jsRound_eq_of {q : ℚ} {n : ℤ} (h1 : (n : ℚ) ≤ q + 1/2) (h2 : q + 1/2 < n + 1) :
    jsRound q = n := by
  rw [jsRound_eq_floor]
  exact Int.floor_eq_iff.mpr ⟨h1, h2⟩

example :
    calculateOverallScore sunnyWeather 100 5 [] ⟨none, some "sun", none⟩ = 70 := by
  have hg : (("sun" : String) ≠ "" && jsIncludes "Sunny" "sun") = true := by decide
  simp only [calculateOverallScore, sunnyWeather, hg, if_true]
  apply jsRound_eq_of <;> norm_num [max_def, min_def]

example :
    calculateOverallScore sunnyWeather 100 5 [] ⟨none, none, none⟩ = 60 := by
  simp only [calculateOverallScore, sunnyWeather]
  apply jsRound_eq_of <;> norm_num [max_def, min_def]

/-- The weather component of the score as the code computes it: 30 points
when a non-empty preference is given and case-insensitively occurs in the
current conditions, 20 points otherwise. -/
def weatherTerm (crit : Criteria) (w : WeatherInfo) : ℚ :=
  if (match crit.weather with
      | some p => p ≠ "" && jsIncludes w.current.conditions p
      | none => false) then 30 else 20

/-- Restructuring of `calculateOverallScore` from its sequential accumulation
into the rounded sum of the four component terms. -/
theorem score_formula (w : WeatherInfo) (hotelCost safety : ℚ)
    (acts : List Activity) (crit : Criteria) :
    calculateOverallScore w hotelCost safety acts crit =
      jsRound (weatherTerm crit w + max 0 (25 - hotelCost / 10)
        + (safety / 5) * 25 + min ((acts.length : ℚ) * 5) 20) := by
  simp only [calculateOverallScore, weatherTerm]
  cases hg : (match crit.weather with
      | some p => p ≠ "" && jsIncludes w.current.conditions p
      | none => false) <;>
    · simp only [hg, if_true, if_false, Bool.false_eq_true]
      congr 1
      ring

/-- Auxiliary: a `reduce`-style fold of `+ f x` is the sum of the mapped list. -/
theorem foldl_add_eq_sum {α : Type} (f : α → ℚ) (l : List α) (init : ℚ) :
    l.foldl (fun sum x => sum + f x) init = init + (l.map f).sum := by
  induction l generalizing init with
  | nil => simp
  | cons x xs ih => simp [ih, add_assoc]

/-- Claim C2: the computed total cost is the sum of flight prices, plus the
sum of hotel total prices, plus the sum of activity prices multiplied by the
travellers count. -/
theorem C2_total_cost (flights : List Flight) (hotels : List Hotel)
    (activities : List Activity) (travelers : ℚ) :
    calculateTotalCost flights hotels activities travelers =
      (flights.map Flight.price).sum + (hotels.map Hotel.totalPrice).sum
        + (activities.map Activity.price).sum * travelers := by
  simp [calculateTotalCost, foldl_add_eq_sum]

/-- Claim C1 counterexample: with the preference given as the empty string
(a JavaScript falsy value), the claimed formula awards the 30-point weather
term (the empty string is a substring of every conditions string), but the
code takes the `else` branch and awards 20: the code yields 45 while the
claimed formula yields 55. -/
theorem C1_counterexample :
    calculateOverallScore sunnyWeather 0 0 [] ⟨none, some "", none⟩ = 45 ∧
    claimOverallScore sunnyWeather 0 0 [] (some "") = 55 ∧
    calculateOverallScore sunnyWeather 0 0 [] ⟨none, some "", none⟩ ≠
      claimOverallScore sunnyWeather 0 0 [] (some "") := by
  have h1 : calculateOverallScore sunnyWeather 0 0 [] ⟨none, some "", none⟩ = 45 := by
    have hg : (("" : String) ≠ "" && jsIncludes "Sunny" "") = false := by decide
    simp only [calculateOverallScore, sunnyWeather, hg, Bool.false_eq_true, if_false]
    apply jsRound_eq_of <;> norm_num [max_def, min_def]
  have h2 : claimOverallScore sunnyWeather 0 0 [] (some "") = 55 := by
    have hw : jsIncludes "Sunny" "" = true := by decide
    simp only [claimOverallScore, sunnyWeather, hw, if_true]
    apply jsRound_eq_of <;> norm_num [max_def, min_def]
  refine ⟨h1, h2, ?_⟩
  rw [h1, h2]
  decide

/-- Claim C1 (amended): the overall score is the rounded sum of four terms —
a weather term that is 30 when a NON-EMPTY preference is given and is a
case-insensitive substring of the current conditions and 20 otherwise,
`max 0 (25 - hotelCost/10)`, `(safetyRating/5)*25`, and
`min (activityCount*5) 20`. -/
theorem C1_overall_score (w : WeatherInfo) (hotelCost safety : ℚ)
    (acts : List Activity) (crit : Criteria) :
    calculateOverallScore w hotelCost safety acts crit =
      jsRound (weatherTerm crit w + max 0 (25 - hotelCost / 10)
        + (safety / 5) * 25 + min ((acts.length : ℚ) * 5) 20) :=
  score_formula w hotelCost safety acts crit

/-- Claim C6: for valid component inputs the score is an integer in
`[0, 100]`; each component term lies in its advertised band and the weather
term is either 20 or 30. -/
theorem C6_score_bounds (w : WeatherInfo) (hotelCost safety : ℚ)
    (acts : List Activity) (crit : Criteria)
    (hcost : 0 ≤ hotelCost) (hs0 : 0 ≤ safety) (hs5 : safety ≤ 5) :
    (0 ≤ calculateOverallScore w hotelCost safety acts crit
      ∧ calculateOverallScore w hotelCost safety acts crit ≤ 100)
    ∧ (weatherTerm crit w = 20 ∨ weatherTerm crit w = 30)
    ∧ ((0 : ℚ) ≤ max 0 (25 - hotelCost / 10) ∧ max 0 (25 - hotelCost / 10) ≤ 25)
    ∧ ((0 : ℚ) ≤ (safety / 5) * 25 ∧ (safety / 5) * 25 ≤ 25)
    ∧ ((0 : ℚ) ≤ min ((acts.length : ℚ) * 5) 20
      ∧ min ((acts.length : ℚ) * 5) 20 ≤ 20) := by
  have hw : weatherTerm crit w = 20 ∨ weatherTerm crit w = 30 := by
    unfold weatherTerm
    cases hg : (match crit.weather with
        | some p => p ≠ "" && jsIncludes w.current.conditions p
        | none => false) <;> simp
  have hsafe : (safety / 5) * 25 = 5 * safety := by ring
  have hc1 : (0 : ℚ) ≤ max 0 (25 - hotelCost / 10) := le_max_left 0 _
  have hc2 : max 0 (25 - hotelCost / 10) ≤ 25 := by
    apply max_le (by norm_num)
    have : (0 : ℚ) ≤ hotelCost / 10 := by positivity
    linarith
  have hsa1 : (0 : ℚ) ≤ (safety / 5) * 25 := by rw [hsafe]; linarith
  have hsa2 : (safety / 5) * 25 ≤ 25 := by rw [hsafe]; linarith
  have hac1 : (0 : ℚ) ≤ min ((acts.length : ℚ) * 5) 20 := by
    apply le_min _ (by norm_num)
    positivity
  have hac2 : min ((acts.length : ℚ) * 5) 20 ≤ 20 := min_le_right _ _
  have hwlo : (20 : ℚ) ≤ weatherTerm crit w := by
    rcases hw with h | h
    · exact h.ge
    · rw [h]; norm_num
  have hwhi : weatherTerm crit w ≤ 30 := by
    rcases hw with h | h
    · rw [h]; norm_num
    · exact h.le
  refine ⟨?_, hw, ⟨hc1, hc2⟩, ⟨hsa1, hsa2⟩, ⟨hac1, hac2⟩⟩
  rw [score_formula]
  set q : ℚ := weatherTerm crit w + max 0 (25 - hotelCost / 10)
    + (safety / 5) * 25 + min ((acts.length : ℚ) * 5) 20 with hq
  have hqlo : (20 : ℚ) ≤ q := by rw [hq]; linarith
  have hqhi : q ≤ 100 := by rw [hq]; linarith
  constructor
  · rw [jsRound_eq_floor]
    have : ((0 : ℤ) : ℚ) ≤ q + 1/2 := by push_cast; linarith
    exact Int.le_floor.mpr this
  · rw [jsRound_eq_floor]
    have h101 : q + 1/2 < ((101 : ℤ) : ℚ) := by push_cast; linarith
    have := Int.floor_lt.mpr h101
    omega

/-- Witness for C6 at concrete inputs. -/
theorem C6_score_bounds_witness :
    (0 ≤ calculateOverallScore sunnyWeather 100 5 [] ⟨none, none, none⟩
      ∧ calculateOverallScore sunnyWeather 100 5 [] ⟨none, none, none⟩ ≤ 100)
    ∧ (weatherTerm ⟨none, none, none⟩ sunnyWeather = 20
      ∨ weatherTerm ⟨none, none, none⟩ sunnyWeather = 30)
    ∧ ((0 : ℚ) ≤ max 0 (25 - (100 : ℚ) / 10) ∧ max 0 (25 - (100 : ℚ) / 10) ≤ 25)
    ∧ ((0 : ℚ) ≤ ((5 : ℚ) / 5) * 25 ∧ ((5 : ℚ) / 5) * 25 ≤ 25)
    ∧ ((0 : ℚ) ≤ min ((List.length ([] : List Activity) : ℚ) * 5) 20
      ∧ min ((List.length ([] : List Activity) : ℚ) * 5) 20 ≤ 20) :=
  C6_score_bounds sunnyWeather 100 5 [] ⟨none, none, none⟩
    (by norm_num) (by norm_num) (by norm_num)

/-! ## Destination comparison (`compareDestinations`, travel-orchestrator.js:225-251) -/

/-- One entry of the `compare_destinations` output. -/
structure DestinationScore where
  destination : String
  weather : CurrentWeather
  averageHotelCost : ℚ
  safetyRating : ℚ
  activityScore : ℕ
  overallScore : ℤ
deriving DecidableEq

/-- The per-destination provider data gathered inside one `Promise.all`
branch of `compareDestinations` (weather forecast, average hotel cost,
safety rating, activities already filtered by the criteria). -/
structure DestData where
  weather : WeatherInfo
  avgHotelCost : ℚ
  safety : ℚ
  activities : List Activity
deriving DecidableEq

/-- One branch of the `Promise.all` of `compareDestinations`: builds the
comparison record for destination `dest`. -/
def scoreDestination (info : String → DestData) (crit : Criteria)
    (dest : String) : DestinationScore :=
  let d := info dest
  { destination := dest
    weather := d.weather.current
    averageHotelCost := d.avgHotelCost
    safetyRating := d.safety
    activityScore := d.activities.length
    overallScore :=
      calculateOverallScore d.weather d.avgHotelCost d.safety d.activities crit }

/-- The comparator `(a, b) => b.overallScore - a.overallScore` of the
`comparisons.sort` call, read as the "`a` may be placed before `b`"
relation of a stable sort. -/
def scoreDesc (a b : DestinationScore) : Bool :=
  decide (b.overallScore ≤ a.overallScore)

/-- `compareDestinations`: map every destination to its comparison record
(`Promise.all` preserves input order) and sort by overall score descending.
ECMAScript guarantees `Array.prototype.sort` is stable, so the sort is
modelled by the stable `List.mergeSort`. -/
def compareDestinations (info : String → DestData) (crit : Criteria)
    (destinations : List String) : List DestinationScore :=
  (destinations.map (scoreDestination info crit)).mergeSort scoreDesc

/-- `scoreDesc` is transitive. -/
theorem scoreDesc_trans (a b c : DestinationScore) :
    scoreDesc a b = true → scoreDesc b c = true → scoreDesc a c = true := by
  intro hab hbc
  simp only [scoreDesc, decide_eq_true_eq] at hab hbc ⊢
  exact le_trans hbc hab

/-- `scoreDesc` is total. -/
theorem scoreDesc_total (a b : DestinationScore) :
    (scoreDesc a b || scoreDesc b a) = true := by
  simp only [scoreDesc, Bool.or_eq_true, decide_eq_true_eq]
  exact le_total b.overallScore a.overallScore

/-- Claim C3: the output of `compareDestinations` is sorted descending by
`overallScore`, and for every score value the entries carrying that score
appear in exactly the input order (stability of the sort over the order of
the input list). -/
theorem C3_compare_sorted_stable (info : String → DestData) (crit : Criteria)
    (destinations : List String) :
    List.Pairwise (fun a b => b.overallScore ≤ a.overallScore)
      (compareDestinations info crit destinations)
    ∧ ∀ s : ℤ,
      (compareDestinations info crit destinations).filter
          (fun x => decide (x.overallScore = s))
        = (destinations.map (scoreDestination info crit)).filter
            (fun x => decide (x.overallScore = s)) := by
  constructor
  · have hs := List.sorted_mergeSort scoreDesc_trans scoreDesc_total
      (destinations.map (scoreDestination info crit))
    refine hs.imp ?_
    intro a b hab
    simpa [scoreDesc, decide_eq_true_eq] using hab
  · intro s
    set l := destinations.map (scoreDestination info crit) with hl
    set p : DestinationScore → Bool := fun x => decide (x.overallScore = s) with hp
    have hsub : (l.filter p).Sublist l := List.filter_sublist l
    have hpair : (l.filter p).Pairwise (fun a b => scoreDesc a b = true) := by
      apply List.pairwise_of_forall_mem_list
      intro a ha b hb
      have ha' := (List.mem_filter.mp ha).2
      have hb' := (List.mem_filter.mp hb).2
      simp only [hp, decide_eq_true_eq] at ha' hb'
      simp [scoreDesc, ha', hb']
    have hstable : (l.filter p).Sublist (l.mergeSort scoreDesc) :=
      List.sublist_mergeSort scoreDesc_trans scoreDesc_total hpair hsub
    have hsub2 : ((l.filter p).filter p).Sublist ((l.mergeSort scoreDesc).filter p) :=
      List.Sublist.filter p hstable
    have hff : (l.filter p).filter p = l.filter p := by
      rw [List.filter_filter]
      simp
    rw [hff] at hsub2
    have hperm : ((l.mergeSort scoreDesc).filter p).Perm (l.filter p) :=
      (List.mergeSort_perm l scoreDesc).filter p
    have hlen : (l.filter p).length = ((l.mergeSort scoreDesc).filter p).length :=
      hperm.length_eq.symm
    exact (hsub2.eq_of_length hlen).symm

/-! ## Weather server (`src/weather-server.ts`) -/

/-- The per-destination success payload of `compare_destination_weather`
(temperature, conditions, humidity, wind speed). -/
structure WeatherObservation where
  temperature : ℚ
  conditions : String
  humidity : ℚ
  windSpeed : ℚ
deriving DecidableEq

/-- One output slot of `compare_destination_weather`: either the observation
for the destination or the error placeholder `{destination, error}`. -/
inductive WeatherSlot where
  | ok (destination : String) (w : WeatherObservation)
  | err (destination : String) (message : String)
deriving DecidableEq

/-- The destination carried by a `compare_destination_weather` output slot. -/
def WeatherSlot.destination : WeatherSlot → String
  | .ok d _ => d
  | .err d _ => d

/-- `compareDestinationWeather` (weather-server.ts:255-300): a `Promise.all`
over `destinations.map`, each branch fetching one destination's weather
(live or mock, abstracted as the `fetch` provider) inside a `try`/`catch`
that degrades a failure to `{destination, error: 'Unable to fetch weather
data'}`. `Promise.all` preserves input order, hence `List.map`. -/
def compareDestinationWeather (fetch : String → Except String WeatherObservation)
    (destinations : List String) : List WeatherSlot :=
  destinations.map fun dest =>
    match fetch dest with
    | .ok w => .ok dest w
    | .error _ => .err dest "Unable to fetch weather data"

/-! ## Currency server (`src/currency-server.ts`) -/

/-- `CurrencyInfo` (currency-server.ts:21-26). -/
structure CurrencyInfo where
  code : String
  name : String
  symbol : String
  country : String
deriving DecidableEq

/-- The fixed destination-to-currency mapping of `getDestinationCurrency`
(currency-server.ts:236-245). -/
def destinationCurrencies : List (String × CurrencyInfo) :=
  [("Paris", ⟨"EUR", "Euro", "€", "France"⟩),
   ("London", ⟨"GBP", "British Pound", "£", "United Kingdom"⟩),
   ("Tokyo", ⟨"JPY", "Japanese Yen", "¥", "Japan"⟩),
   ("New York", ⟨"USD", "US Dollar", "$", "United States"⟩),
   ("Sydney", ⟨"AUD", "Australian Dollar", "A$", "Australia"⟩),
   ("Bangkok", ⟨"THB", "Thai Baht", "฿", "Thailand"⟩),
   ("Dubai", ⟨"AED", "UAE Dirham", "د.إ", "UAE"⟩),
   ("Singapore", ⟨"SGD", "Singapore Dollar", "S$", "Singapore"⟩)]

/-- The default returned for unrecognized destinations. -/
def defaultCurrency : CurrencyInfo :=
  ⟨"USD", "US Dollar", "$", "Unknown"⟩

/-- `getDestinationCurrency` (currency-server.ts:232-262): exact lookup in
the fixed mapping, defaulting to USD/"Unknown". -/
def getDestinationCurrency (destination : String) : CurrencyInfo :=
  (destinationCurrencies.lookup destination).getD defaultCurrency

/-- The successful payload of `convert_currency`. -/
structure ConversionResult where
  rate : ℚ
  convertedAmount : ℚ
  originalAmount : ℚ
deriving DecidableEq

/-- `convertCurrency` (currency-server.ts:188-230). The provider response
`response.data.rates[to]` is abstracted as `rates from to : Option ℚ`; the
code's guard is `if (!rate) throw`, and in JavaScript both `undefined` (no
rate for the pair) and the number `0` are falsy, so a supplied zero rate
also raises the error. `amount` defaults to 1 when absent. -/
def convertCurrency (rates : String → String → Option ℚ)
    (fromCurrency toCurrency : String) (amount : Option ℚ) :
    Except String ConversionResult :=
  let amt := amount.getD 1
  match rates fromCurrency toCurrency with
  | none =>
    .error ("Exchange rate not available for " ++ fromCurrency ++ " to " ++ toCurrency)
  | some rate =>
    if rate = 0 then
      .error ("Exchange rate not available for " ++ fromCurrency ++ " to " ++ toCurrency)
    else
      .ok ⟨rate, amt * rate, amt⟩

/-- One output slot of `get_travel_budget_conversion`: either the converted
budget for the destination or the error placeholder `{destination, error}`. -/
inductive BudgetSlot where
  | ok (destination : String) (localCurrency : CurrencyInfo)
      (budgetInLocalCurrency : ℚ) (exchangeRate : ℚ)
  | err (destination : String) (message : String)
deriving DecidableEq

/-- The destination carried by a `get_travel_budget_conversion` output slot. -/
def BudgetSlot.destination : BudgetSlot → String
  | .ok d _ _ _ => d
  | .err d _ => d

/-- `getTravelBudgetConversion` (currency-server.ts:264-304): a `Promise.all`
over `destinations.map`; each branch looks up the destination currency (an
operation that cannot fail) and converts the budget into it, a `try`/`catch`
degrading a conversion failure to
`{destination, error: 'Unable to convert currency'}`. -/
def getTravelBudgetConversion (rates : String → String → Option ℚ)
    (budget : ℚ) (homeCurrency : String) (destinations : List String) :
    List BudgetSlot :=
  destinations.map fun dest =>
    let currencyInfo := getDestinationCurrency dest
    match convertCurrency rates homeCurrency currencyInfo.code (some budget) with
    | .ok r => .ok dest currencyInfo r.convertedAmount r.rate
    | .error _ => .err dest "Unable to convert currency"

/-- Claim C4: aggregation over a destination list (weather comparison and
budget conversion) yields exactly one slot per input destination in input
order; a failing branch yields the error placeholder in its own slot and
leaves every other slot untouched. -/
theorem C4_aggregation_order (fetch : String → Except String WeatherObservation)
    (rates : String → String → Option ℚ) (budget : ℚ) (homeCurrency : String)
    (destinations : List String) :
    ((compareDestinationWeather fetch destinations).map WeatherSlot.destination
        = destinations
      ∧ ∀ (i : ℕ) (d : String), destinations[i]? = some d →
          (∀ w, fetch d = .ok w →
            (compareDestinationWeather fetch destinations)[i]? = some (.ok d w))
          ∧ (∀ e, fetch d = .error e →
            (compareDestinationWeather fetch destinations)[i]?
              = some (.err d "Unable to fetch weather data")))
    ∧ ((getTravelBudgetConversion rates budget homeCurrency destinations).map
          BudgetSlot.destination = destinations
      ∧ ∀ (i : ℕ) (d : String), destinations[i]? = some d →
          (∀ r, convertCurrency rates homeCurrency
              (getDestinationCurrency d).code (some budget) = .ok r →
            (getTravelBudgetConversion rates budget homeCurrency destinations)[i]?
              = some (.ok d (getDestinationCurrency d) r.convertedAmount r.rate))
          ∧ (∀ e, convertCurrency rates homeCurrency
              (getDestinationCurrency d).code (some budget) = .error e →
            (getTravelBudgetConversion rates budget homeCurrency destinations)[i]?
              = some (.err d "Unable to convert currency"))) := by
  refine ⟨⟨?_, ?_⟩, ?_, ?_⟩
  · rw [compareDestinationWeather, List.map_map]
    apply List.map_id''
    intro d
    cases h : fetch d <;> simp [Function.comp, h, WeatherSlot.destination]
  · intro i d hd
    constructor
    · intro w hw
      rw [compareDestinationWeather, List.getElem?_map, hd]
      simp [hw]
    · intro e he
      rw [compareDestinationWeather, List.getElem?_map, hd]
      simp [he]
  · rw [getTravelBudgetConversion, List.map_map]
    apply List.map_id''
    intro d
    cases h : convertCurrency rates homeCurrency (getDestinationCurrency d).code
        (some budget) <;>
      simp [Function.comp, h, BudgetSlot.destination]
  · intro i d hd
    constructor
    · intro r hr
      rw [getTravelBudgetConversion, List.getElem?_map, hd]
      simp [hr]
    · intro e he
      rw [getTravelBudgetConversion, List.getElem?_map, hd]
      simp [he]

/-- A weather provider test double whose branch for destination "B" fails. -/
def fetchFailB : String → Except String WeatherObservation := fun d =>
  if d = "B" then .error "network error" else .ok ⟨22, "Sunny", 65, 10⟩

/-- A rate-table test double with no rate toward GBP. -/
def ratesNoGBP : String → String → Option ℚ := fun _ t =>
  if t = "GBP" then none else some 2

/-- Witness for C4: with provider branch "B" failing, the three slots come
back in order with the error placeholder in slot 1; likewise for a budget
conversion whose "London" branch fails. -/
theorem C4_aggregation_order_witness :
    (compareDestinationWeather fetchFailB ["A", "B", "C"]).map
        WeatherSlot.destination = ["A", "B", "C"]
    ∧ (compareDestinationWeather fetchFailB ["A", "B", "C"])[1]?
        = some (.err "B" "Unable to fetch weather data")
    ∧ (getTravelBudgetConversion ratesNoGBP 100 "USD"
          ["Paris", "London", "Tokyo"]).map BudgetSlot.destination
        = ["Paris", "London", "Tokyo"]
    ∧ (getTravelBudgetConversion ratesNoGBP 100 "USD"
          ["Paris", "London", "Tokyo"])[1]?
        = some (.err "London" "Unable to convert currency") := by
  have h1 := C4_aggregation_order fetchFailB ratesNoGBP 100 "USD" ["A", "B", "C"]
  have h2 := C4_aggregation_order fetchFailB ratesNoGBP 100 "USD"
    ["Paris", "London", "Tokyo"]
  refine ⟨h1.1.1, ?_, h2.2.1, ?_⟩
  · exact (h1.1.2 1 "B" rfl).2 "network error" (by simp [fetchFailB])
  · refine (h2.2.2 1 "London" rfl).2
      "Exchange rate not available for USD to GBP" ?_
    have hcode : (getDestinationCurrency "London").code = "GBP" := by decide
    rw [hcode]
    simp [convertCurrency, ratesNoGBP]

/-- The rate table for the C7 counterexample: the provider supplies the
rate `0` for USD→EUR and nothing else. -/
def zeroRateTable : String → String → Option ℚ := fun f t =>
  if f = "USD" && t = "EUR" then some 0 else none

/-- Claim C7 counterexample: with the provider supplying the rate `0` for
the pair USD→EUR, the claim demands a successful result with
`convertedAmount = 100 * 0`, but `if (!rate)` treats the number `0` as
falsy and the code raises the no-rate error instead. -/
theorem C7_counterexample :
    zeroRateTable "USD" "EUR" = some 0
    ∧ convertCurrency zeroRateTable "USD" "EUR" (some 100)
        ≠ .ok ⟨0, 100 * 0, 100⟩
    ∧ convertCurrency zeroRateTable "USD" "EUR" (some 100)
        = .error "Exchange rate not available for USD to EUR" := by
  refine ⟨rfl, ?_, ?_⟩
  · simp [convertCurrency, zeroRateTable]
  · simp [convertCurrency, zeroRateTable]

/-- Claim C7 (amended): when the provider supplies a NONZERO rate for the
pair the call succeeds with `convertedAmount = amount * rate` exactly
(`amount` defaulting to 1) and `originalAmount = amount`; when no rate is
available — and likewise when the supplied rate is the falsy number 0 —
the call fails with an error rather than silently falling back. -/
theorem C7_convert_currency (rates : String → String → Option ℚ)
    (fromCurrency toCurrency : String) (amount : Option ℚ) :
    (∀ r, rates fromCurrency toCurrency = some r → r ≠ 0 →
      convertCurrency rates fromCurrency toCurrency amount
        = .ok ⟨r, (amount.getD 1) * r, amount.getD 1⟩)
    ∧ (rates fromCurrency toCurrency = none →
      convertCurrency rates fromCurrency toCurrency amount
        = .error ("Exchange rate not available for "
            ++ fromCurrency ++ " to " ++ toCurrency))
    ∧ (rates fromCurrency toCurrency = some 0 →
      convertCurrency rates fromCurrency toCurrency amount
        = .error ("Exchange rate not available for "
            ++ fromCurrency ++ " to " ++ toCurrency)) := by
  refine ⟨?_, ?_, ?_⟩
  · intro r hr hr0
    simp [convertCurrency, hr, hr0]
  · intro h
    simp [convertCurrency, h]
  · intro h
    simp [convertCurrency, h]

/-- A rate table supplying 2 for USD→EUR only. -/
def doubleRateTable : String → String → Option ℚ := fun f t =>
  if f = "USD" && t = "EUR" then some 2 else none

/-- Witness for C7 at concrete inputs: a successful conversion at rate 2
and a failing one for a pair with no rate. -/
theorem C7_convert_currency_witness :
    convertCurrency doubleRateTable "USD" "EUR" (some 100)
        = .ok ⟨2, (100 : ℚ) * 2, 100⟩
    ∧ convertCurrency doubleRateTable "USD" "GBP" none
        = .error "Exchange rate not available for USD to GBP" := by
  have h1 := C7_convert_currency doubleRateTable "USD" "EUR" (some 100)
  have h2 := C7_convert_currency doubleRateTable "USD" "GBP" none
  exact ⟨h1.1 2 rfl (by norm_num), h2.2.1 rfl⟩

/-- Keyed lookup in an association list with pairwise-distinct keys finds
any member pair. -/
theorem lookup_eq_of_mem {l : List (String × CurrencyInfo)}
    (hnd : (l.map Prod.fst).Nodup) {d : String} {info : CurrencyInfo}
    (h : (d, info) ∈ l) : l.lookup d = some info := by
  induction l with
  | nil => cases h
  | cons head tail ih =>
    simp only [List.map_cons, List.nodup_cons] at hnd
    rcases List.mem_cons.mp h with heq | hmem
    · subst heq
      simp [List.lookup]
    · have hne : (d == head.1) = false := by
        apply beq_eq_false_iff_ne.mpr
        intro he
        exact hnd.1 (he ▸ List.mem_map_of_mem Prod.fst hmem)
      obtain ⟨k, v⟩ := head
      rw [List.lookup, hne]
      exact ih hnd.2 hmem

/-- Keyed lookup fails exactly off the key set. -/
theorem lookup_eq_none_of_not_mem {l : List (String × CurrencyInfo)}
    {d : String} (h : d ∉ l.map Prod.fst) : l.lookup d = none := by
  induction l with
  | nil => rfl
  | cons head tail ih =>
    simp only [List.map_cons, List.mem_cons] at h
    push_neg at h
    have hne : (d == head.1) = false := beq_eq_false_iff_ne.mpr h.1
    obtain ⟨k, v⟩ := head
    rw [List.lookup, hne]
    exact ih h.2

/-- Claim C8: `getDestinationCurrency` is a pure lookup in the fixed
mapping: any destination listed in the mapping yields its mapped
`CurrencyInfo` (in particular Paris yields EUR), and any other destination
yields the USD/"Unknown" default rather than an error. -/
theorem C8_destination_currency (d : String) :
    (∀ info, (d, info) ∈ destinationCurrencies → getDestinationCurrency d = info)
    ∧ getDestinationCurrency "Paris" = ⟨"EUR", "Euro", "€", "France"⟩
    ∧ (d ∉ destinationCurrencies.map Prod.fst →
        getDestinationCurrency d = defaultCurrency) := by
  refine ⟨?_, ?_, ?_⟩
  · intro info h
    rw [getDestinationCurrency, lookup_eq_of_mem (by decide) h]
    rfl
  · decide
  · intro h
    rw [getDestinationCurrency, lookup_eq_none_of_not_mem h]
    rfl

/-- Witness for C8: a mapped destination and an unmapped one. -/
theorem C8_destination_currency_witness :
    getDestinationCurrency "Paris" = ⟨"EUR", "Euro", "€", "France"⟩
    ∧ getDestinationCurrency "Atlantis" = defaultCurrency := by
  have h1 := C8_destination_currency "Paris"
  have h2 := C8_destination_currency "Atlantis"
  exact ⟨h1.2.1, h2.2.2 (by decide)⟩

/-! ## Trip planning (`planTrip`, travel-orchestrator.js:168-204) -/

/-- The aggregate trip plan assembled by `planTrip`. -/
structure TripPlan where
  destination : String
  weather : WeatherInfo
  flights : List Flight
  hotels : List Hotel
  activities : List Activity
  totalCost : ℚ
  currency : String
  language : String
  safetyRating : ℚ
deriving DecidableEq

/-- The provider results `planTrip` aggregates after validation (weather,
flights, hotels, activities, currency, language, safety rating). -/
structure TripProviders where
  weather : WeatherInfo
  flights : List Flight
  hotels : List Hotel
  activities : List Activity
  currency : String
  language : String
  safetyRating : ℚ
deriving DecidableEq

/-- `planTrip` (travel-orchestrator.js:168-204). Dates are modelled by their
numeric timestamps (`new Date(...)` objects compare numerically); the
validation `if (start >= end) throw new McpError(InvalidParams, ...)`
precedes every provider call, so a rejected request returns no partial
plan. -/
def planTrip (startDate endDate : ℤ) (destination : String)
    (travelers : ℚ) (p : TripProviders) : Except String TripPlan :=
  if startDate ≥ endDate then
    .error "End date must be after start date"
  else
    .ok { destination := destination
          weather := p.weather
          flights := p.flights
          hotels := p.hotels
          activities := p.activities
          totalCost := calculateTotalCost p.flights p.hotels p.activities travelers
          currency := p.currency
          language := p.language
          safetyRating := p.safetyRating }

/-- Claim C5: a request whose end date is not strictly after its start date
is rejected with the validation error and yields no trip plan; a request
with start date strictly before end date passes validation and yields a
plan. -/
theorem C5_date_validation (startDate endDate : ℤ) (destination : String)
    (travelers : ℚ) (p : TripProviders) :
    (¬ startDate < endDate →
      planTrip startDate endDate destination travelers p
          = .error "End date must be after start date"
      ∧ ∀ plan, planTrip startDate endDate destination travelers p ≠ .ok plan)
    ∧ (startDate < endDate →
      ∃ plan, planTrip startDate endDate destination travelers p = .ok plan) := by
  constructor
  · intro h
    have h' : startDate ≥ endDate := not_lt.mp h
    refine ⟨by simp [planTrip, h'], ?_⟩
    intro plan
    simp [planTrip, h']
  · intro h
    have h' : ¬ startDate ≥ endDate := not_le.mpr h
    refine ⟨⟨destination, p.weather, p.flights, p.hotels, p.activities,
      calculateTotalCost p.flights p.hotels p.activities travelers,
      p.currency, p.language, p.safetyRating⟩, ?_⟩
    simp [planTrip, h']

/-- A fixed provider bundle for the C5 witness. -/
def stubProviders : TripProviders :=
  ⟨sunnyWeather, [], [], [], "USD", "English", 5⟩

/-- Witness for C5: a reversed date range is rejected, a proper one is
accepted. -/
theorem C5_date_validation_witness :
    (planTrip 5 3 "Tokyo" 2 stubProviders
        = .error "End date must be after start date"
      ∧ ∀ plan, planTrip 5 3 "Tokyo" 2 stubProviders ≠ .ok plan)
    ∧ ∃ plan, planTrip 3 5 "Tokyo" 2 stubProviders = .ok plan :=
  ⟨(C5_date_validation 5 3 "Tokyo" 2 stubProviders).1 (by norm_num),
   (C5_date_validation 3 5 "Tokyo" 2 stubProviders).2 (by norm_num)⟩

/-! ## Weather alerts (`getWeatherAlerts`, weather-server.ts:219-253) -/

/-- The payload of `get_weather_alerts`. -/
structure AlertsResult where
  alerts : List String
  message : String
deriving DecidableEq

/-- `getWeatherAlerts`: without an API key the handler returns
`{alerts: [], message: 'No active weather alerts'}`; with one it returns
`{alerts: [], message: 'Weather alerts not available in free tier'}` (the
alerts endpoint is behind a paid tier, so this branch is also hard-coded). -/
def getWeatherAlerts (hasApiKey : Bool) (destination : String) : AlertsResult :=
  if !hasApiKey then
    ⟨[], "No active weather alerts"⟩
  else
    ⟨[], "Weather alerts not available in free tier"⟩

/-- Claim C10: the alerts list is empty in both configuration modes for
every destination, and the two modes differ only in the message text. -/
theorem C10_alerts_always_empty (hasApiKey : Bool) (destination : String) :
    (getWeatherAlerts hasApiKey destination).alerts = []
    ∧ (getWeatherAlerts true destination).message
        ≠ (getWeatherAlerts false destination).message := by
  constructor
  · cases hasApiKey <;> rfl
  · simp [getWeatherAlerts]

/-! ## Currency trends (`getCurrencyTrends`, currency-server.ts:306-343) -/

/-- One entry of the mock trend list; dates are modelled as day numbers
(the loop does day-granularity arithmetic with `setDate`). -/
structure TrendPoint where
  date : ℤ
  rate : ℚ
deriving DecidableEq

/-- The trend list built by `for (let i = days - 1; i >= 0; i--)`: the
iteration for offset `i` pushes the date `today - i` days and a freshly
drawn random rate. The unseeded random draws are abstracted as the input
`rng`, indexed by the loop offset. -/
def trendsList (today : ℤ) (rng : ℕ → ℚ) (days : ℕ) : List TrendPoint :=
  (List.range days).reverse.map fun (i : ℕ) => ⟨today - (i : ℤ), rng i⟩

/-- JavaScript `Math.min(...xs)` over a non-empty spread (for the empty
spread `Math.min()` is `Infinity`; that case is unreachable here because
`days` is at least 7 by the input schema). -/
def jsListMin : List ℚ → ℚ
  | [] => 0
  | x :: xs => xs.foldl min x

/-- JavaScript `Math.max(...xs)` over a non-empty spread. -/
def jsListMax : List ℚ → ℚ
  | [] => 0
  | x :: xs => xs.foldl max x

/-- The payload of `get_currency_trends`. -/
structure TrendsResult where
  days : ℕ
  trends : List TrendPoint
  averageRate : ℚ
  minRate : ℚ
  maxRate : ℚ
deriving DecidableEq

/-- `getCurrencyTrends` (currency-server.ts:306-343): the trend list plus
`reduce`-computed average and spread min/max of the rates. -/
def getCurrencyTrends (today : ℤ) (rng : ℕ → ℚ) (days : ℕ) : TrendsResult :=
  let trends := trendsList today rng days
  { days := days
    trends := trends
    averageRate :=
      (trends.foldl (fun sum item => sum + item.rate) 0) / trends.length
    minRate := jsListMin (trends.map TrendPoint.rate)
    maxRate := jsListMax (trends.map TrendPoint.rate) }

/-- Folding `min` never goes above the initial accumulator. -/
theorem foldl_min_le_init (xs : List ℚ) (a : ℚ) : xs.foldl min a ≤ a := by
  induction xs generalizing a with
  | nil => simp
  | cons x xs ih => exact le_trans (ih (min a x)) (min_le_left a x)

/-- Folding `min` never goes above any list member. -/
theorem foldl_min_le_mem (xs : List ℚ) (r : ℚ) (h : r ∈ xs) :
    ∀ a, xs.foldl min a ≤ r := by
  induction xs with
  | nil => cases h
  | cons x xs ih =>
    intro a
    rcases List.mem_cons.mp h with rfl | hmem
    · calc (r :: xs).foldl min a = xs.foldl min (min a r) := rfl
        _ ≤ min a r := foldl_min_le_init xs (min a r)
        _ ≤ r := min_le_right a r
    · exact ih hmem (min a x)

/-- Folding `min` produces the accumulator or a list member. -/
theorem foldl_min_mem (xs : List ℚ) (a : ℚ) :
    xs.foldl min a = a ∨ xs.foldl min a ∈ xs := by
  induction xs generalizing a with
  | nil => left; rfl
  | cons x xs ih =>
    rcases ih (min a x) with h | h
    · rcases min_choice a x with h2 | h2
      · left
        rw [List.foldl_cons, h, h2]
      · right
        rw [List.foldl_cons, h, h2]
        exact List.mem_cons_self x xs
    · right
      exact List.mem_cons_of_mem x h

/-- Folding `max` never goes below the initial accumulator. -/
theorem foldl_max_ge_init (xs : List ℚ) (a : ℚ) : a ≤ xs.foldl max a := by
  induction xs generalizing a with
  | nil => simp
  | cons x xs ih => exact le_trans (le_max_left a x) (ih (max a x))

/-- Folding `max` never goes below any list member. -/
theorem foldl_max_ge_mem (xs : List ℚ) (r : ℚ) (h : r ∈ xs) :
    ∀ a, r ≤ xs.foldl max a := by
  induction xs with
  | nil => cases h
  | cons x xs ih =>
    intro a
    rcases List.mem_cons.mp h with rfl | hmem
    · calc r ≤ max a r := le_max_right a r
        _ ≤ xs.foldl max (max a r) := foldl_max_ge_init xs (max a r)
        _ = (r :: xs).foldl max a := rfl
    · exact ih hmem (max a x)

/-- Folding `max` produces the accumulator or a list member. -/
theorem foldl_max_mem (xs : List ℚ) (a : ℚ) :
    xs.foldl max a = a ∨ xs.foldl max a ∈ xs := by
  induction xs generalizing a with
  | nil => left; rfl
  | cons x xs ih =>
    rcases ih (max a x) with h | h
    · rcases max_choice a x with h2 | h2
      · left
        rw [List.foldl_cons, h, h2]
      · right
        rw [List.foldl_cons, h, h2]
        exact List.mem_cons_self x xs
    · right
      exact List.mem_cons_of_mem x h

/-- `jsListMin` of a non-empty list is its least member. -/
theorem jsListMin_spec {l : List ℚ} (h : l ≠ []) :
    jsListMin l ∈ l ∧ ∀ r ∈ l, jsListMin l ≤ r := by
  match l, h with
  | x :: xs, _ =>
    constructor
    · rcases foldl_min_mem xs x with h1 | h1
      · show xs.foldl min x ∈ x :: xs
        rw [h1]
        exact List.mem_cons_self x xs
      · exact List.mem_cons_of_mem x h1
    · intro r hr
      rcases List.mem_cons.mp hr with rfl | hmem
      · exact foldl_min_le_init xs r
      · exact foldl_min_le_mem xs r hmem x

/-- `jsListMax` of a non-empty list is its greatest member. -/
theorem jsListMax_spec {l : List ℚ} (h : l ≠ []) :
    jsListMax l ∈ l ∧ ∀ r ∈ l, r ≤ jsListMax l := by
  match l, h with
  | x :: xs, _ =>
    constructor
    · rcases foldl_max_mem xs x with h1 | h1
      · show xs.foldl max x ∈ x :: xs
        rw [h1]
        exact List.mem_cons_self x xs
      · exact List.mem_cons_of_mem x h1
    · intro r hr
      rcases List.mem_cons.mp hr with rfl | hmem
      · exact foldl_max_ge_init xs r
      · exact foldl_max_ge_mem xs r hmem x

/-- The mean of a non-empty list lies between `jsListMin` and `jsListMax`. -/
theorem mean_between {l : List ℚ} (h : l ≠ []) :
    jsListMin l ≤ l.sum / l.length ∧ l.sum / l.length ≤ jsListMax l := by
  have hmin := jsListMin_spec h
  have hmax := jsListMax_spec h
  have hlen : (0 : ℚ) < l.length := by
    have := List.length_pos.mpr h
    exact_mod_cast this
  constructor
  · rw [le_div_iff₀ hlen]
    calc jsListMin l * l.length = l.length • jsListMin l := by
          rw [nsmul_eq_mul, mul_comm]
      _ ≤ l.sum := List.card_nsmul_le_sum l _ hmin.2
  · rw [div_le_iff₀ hlen]
    calc l.sum ≤ l.length • jsListMax l := List.sum_le_card_nsmul l _ hmax.2
      _ = jsListMax l * l.length := by rw [nsmul_eq_mul, mul_comm]

/-- Claim C9: with the default `days = 30`, the trend list has exactly 30
entries, the dates ascend chronologically and end on today, and the
returned aggregates are the minimum, mean and maximum of the listed rates
(hence `minRate ≤ averageRate ≤ maxRate`). -/
theorem C9_currency_trends (today : ℤ) (rng : ℕ → ℚ) :
    (getCurrencyTrends today rng 30).trends.length = 30
    ∧ List.Pairwise (fun a b => a.date < b.date)
        (getCurrencyTrends today rng 30).trends
    ∧ ((getCurrencyTrends today rng 30).trends.map TrendPoint.date).getLast?
        = some today
    ∧ (getCurrencyTrends today rng 30).minRate
        ∈ (getCurrencyTrends today rng 30).trends.map TrendPoint.rate
    ∧ (∀ r ∈ (getCurrencyTrends today rng 30).trends.map TrendPoint.rate,
        (getCurrencyTrends today rng 30).minRate ≤ r)
    ∧ (getCurrencyTrends today rng 30).maxRate
        ∈ (getCurrencyTrends today rng 30).trends.map TrendPoint.rate
    ∧ (∀ r ∈ (getCurrencyTrends today rng 30).trends.map TrendPoint.rate,
        r ≤ (getCurrencyTrends today rng 30).maxRate)
    ∧ (getCurrencyTrends today rng 30).averageRate
        = ((getCurrencyTrends today rng 30).trends.map TrendPoint.rate).sum / 30
    ∧ (getCurrencyTrends today rng 30).minRate
        ≤ (getCurrencyTrends today rng 30).averageRate
    ∧ (getCurrencyTrends today rng 30).averageRate
        ≤ (getCurrencyTrends today rng 30).maxRate := by
  have e1 : (getCurrencyTrends today rng 30).trends = trendsList today rng 30 := rfl
  have e2 : (getCurrencyTrends today rng 30).minRate
      = jsListMin ((trendsList today rng 30).map TrendPoint.rate) := rfl
  have e3 : (getCurrencyTrends today rng 30).maxRate
      = jsListMax ((trendsList today rng 30).map TrendPoint.rate) := rfl
  have e4 : (getCurrencyTrends today rng 30).averageRate
      = ((trendsList today rng 30).foldl (fun sum item => sum + item.rate) 0)
        / ((trendsList today rng 30).length : ℚ) := rfl
  have hlen : (trendsList today rng 30).length = 30 := by simp [trendsList]
  have hmaplen : ((trendsList today rng 30).map TrendPoint.rate).length = 30 := by
    simp [hlen]
  have hrne : (trendsList today rng 30).map TrendPoint.rate ≠ [] := by
    intro h
    have := congrArg List.length h
    rw [hmaplen] at this
    simp at this
  have havg : (getCurrencyTrends today rng 30).averageRate
      = ((trendsList today rng 30).map TrendPoint.rate).sum / 30 := by
    rw [e4, foldl_add_eq_sum TrendPoint.rate, hlen]
    norm_num
  have hmin := jsListMin_spec hrne
  have hmax := jsListMax_spec hrne
  have hmean := mean_between hrne
  rw [hmaplen] at hmean
  have hpw : List.Pairwise (fun a b : TrendPoint => a.date < b.date)
      (trendsList today rng 30) := by
    rw [trendsList, List.pairwise_map, List.pairwise_reverse]
    refine (List.pairwise_lt_range 30).imp ?_
    intro i j hij
    show today - (j : ℤ) < today - (i : ℤ)
    omega
  have hlast : ((trendsList today rng 30).map TrendPoint.date).getLast?
      = some today := by
    rw [trendsList, List.map_map, List.getLast?_map, List.getLast?_reverse,
      List.head?_range]
    simp
  refine ⟨by rw [e1]; exact hlen, by rw [e1]; exact hpw, by rw [e1]; exact hlast,
    ?_, ?_, ?_, ?_, by rw [havg, e1], ?_, ?_⟩
  · rw [e1, e2]
    exact hmin.1
  · intro r hr
    rw [e2]
    exact hmin.2 r (by rwa [e1] at hr)
  · rw [e1, e3]
    exact hmax.1
  · intro r hr
    rw [e3]
    exact hmax.2 r (by rwa [e1] at hr)
  · rw [e2, havg]
    exact_mod_cast hmean.1
  · rw [e3, havg]
    exact_mod_cast hmean.2

/-- Witness for C9 at a concrete clock and random source: the ∀-bounded
rate facts are discharged at the maximum itself. -/
theorem C9_currency_trends_witness :
    (getCurrencyTrends 0 (fun _ => 1) 30).trends.length = 30
    ∧ (getCurrencyTrends 0 (fun _ => 1) 30).minRate
        ≤ (getCurrencyTrends 0 (fun _ => 1) 30).averageRate
    ∧ (getCurrencyTrends 0 (fun _ => 1) 30).minRate
        ≤ (getCurrencyTrends 0 (fun _ => 1) 30).maxRate := by
  have h := C9_currency_trends 0 (fun _ => 1)
  exact ⟨h.1, h.2.2.2.2.2.2.2.2.1,
    h.2.2.2.2.1 (getCurrencyTrends 0 (fun _ => 1) 30).maxRate h.2.2.2.2.2.1⟩
